import Mathlib

/-
Verification of the simulation core of an Asteroids-style arcade game.

The game code is embedded shallowly: positions and velocities are pairs of
rationals (the reference uses floats, but every property checked here is
about exact branch structure, not rounding), machine side effects (drawing,
sound) are dropped, and every call to the random number generator or to a
trigonometric function is replaced by an explicit parameter: a stream of
pre-drawn values, or an abstract direction function.  Fallible or
potentially non-terminating code (the rejection-sampling placement loop)
is modelled with fuel and an Option result.
-/

namespace Asteroids

/-- Playfield width in pixels (constant WIDTH of the game module). -/
def WIDTH : ℚ := 1280

/-- Playfield height in pixels (constant HEIGHT of the game module). -/
def HEIGHT : ℚ := 1024

/-- Projectile speed in pixels per second (BULLET_SPEED). -/
def BULLET_SPEED : ℚ := 520

/-- Projectile lifetime in seconds (BULLET_LIFETIME). -/
def BULLET_LIFETIME : ℚ := 1.2

/-- Maximum number of live projectiles (MAX_BULLETS). -/
def MAX_BULLETS : Nat := 5

/-- Craft thrust acceleration in pixels per second squared (SHIP_THRUST). -/
def SHIP_THRUST : ℚ := 300

/-- Craft friction constant (SHIP_FRICTION). -/
def SHIP_FRICTION : ℚ := 0.9

/-- Fraction of the craft sprite half-width used as collision radius. -/
def SHIP_COLLISION_SCALE : ℚ := 0.75

/-- Minimum rock scale below which fragmentation is terminal. -/
def ASTEROID_SCALE_MIN : ℚ := 0.45

/-- Fraction of the rock sprite half-width used as collision radius. -/
def ASTEROID_COLLISION_SCALE : ℚ := 0.85

/-- Invulnerability window after a craft reset, in seconds (INVULN_TIME). -/
def INVULN_TIME : ℚ := 2

/-- Craft turn rate in degrees per second.  The source stores
SHIP_TURN_SPEED = radians(220) and applies degrees(SHIP_TURN_SPEED * dt),
which is exactly 220 * dt degrees. -/
def SHIP_TURN_DEG : ℚ := 220

/-- Python's int() conversion on a float: truncation toward zero. -/
def pyInt (q : ℚ) : ℤ := if 0 ≤ q then Int.floor q else Int.ceil q

/-- Python's float modulo x % m for positive m (sign follows the divisor). -/
def fmod (x m : ℚ) : ℚ := x - m * ((Int.floor (x / m) : ℤ) : ℚ)

/-- Component-wise vector addition (helper add of the game module). -/
def add (a b : ℚ × ℚ) : ℚ × ℚ := (a.1 + b.1, a.2 + b.2)

/-- Scalar multiplication of a 2D vector (helper scale_vec). -/
def scale_vec (v : ℚ × ℚ) (s : ℚ) : ℚ × ℚ := (v.1 * s, v.2 * s)

/-- Toroidal wrap of a position, exactly as in the source: each axis gets at
most one conditional add (when negative) followed by at most one conditional
subtract (when above the dimension). -/
def wrap_position (pos : ℚ × ℚ) : ℚ × ℚ :=
  let x := pos.1
  let y := pos.2
  let x := if x < 0 then x + WIDTH else x
  let x := if x > WIDTH then x - WIDTH else x
  let y := if y < 0 then y + HEIGHT else y
  let y := if y > HEIGHT then y - HEIGHT else y
  (x, y)

/-- Circle overlap test of the source: squared center distance compared with
the squared sum of the radii, using a non-strict inequality. -/
def circle_collide (p1 : ℚ × ℚ) (r1 : ℚ) (p2 : ℚ × ℚ) (r2 : ℚ) : Bool :=
  decide ((p1.1 - p2.1) ^ 2 + (p1.2 - p2.2) ^ 2 ≤ (r1 + r2) ^ 2)

/-- The spec's circle-overlap predicate, written from the spec's words:
true when the squared center distance is STRICTLY less than the squared sum
of the radii.  Kept separate from circle_collide for comparison. -/
def circlesOverlapSpec (p1 : ℚ × ℚ) (r1 : ℚ) (p2 : ℚ × ℚ) (r2 : ℚ) : Prop :=
  (p1.1 - p2.1) ^ 2 + (p1.2 - p2.2) ^ 2 < (r1 + r2) ^ 2

/-- A projectile (class Bullet): position, velocity, accumulated age and a
dead flag. -/
structure Bullet where
  pos : ℚ × ℚ
  vel : ℚ × ℚ
  age : ℚ
  dead : Bool
deriving DecidableEq

/-- Bullet constructor: age starts at 0, dead starts false. -/
def Bullet.mk0 (pos vel : ℚ × ℚ) : Bullet :=
  { pos := pos, vel := vel, age := 0, dead := false }

/-- Bullet.update(dt): age accrues dt first; if the new age exceeds the
lifetime the bullet is marked dead and nothing else happens; otherwise the
position integrates velocity * dt and wraps. -/
def Bullet.update (b : Bullet) (dt : ℚ) : Bullet :=
  let age := b.age + dt
  if age > BULLET_LIFETIME then { b with age := age, dead := true }
  else { b with age := age, pos := wrap_position (add b.pos (scale_vec b.vel dt)) }

/-- Repeated Bullet.update over a list of frame deltas. -/
def Bullet.updates : Bullet → List ℚ → Bullet
  | b, [] => b
  | b, dt :: rest => (b.update dt).updates rest

/-- A rock body (class Asteroid).  The sprite itself is rendering data; only
its base width matters to the simulation, via the collision radius. -/
structure Asteroid where
  baseW : ℤ
  scale : ℚ
  angle : ℚ
  spin : ℚ
  pos : ℚ × ℚ
  vel : ℚ × ℚ
  dead : Bool
  radius : ℚ
deriving DecidableEq

/-- Width of the pre-scaled rock sprite: pygame.transform.smoothscale is
called with max(1, int(w * scale)). -/
def scaledWidth (baseW : ℤ) (scale : ℚ) : ℤ := max 1 (pyInt ((baseW : ℚ) * scale))

/-- Asteroid constructor: the collision radius is half the scaled sprite
width times ASTEROID_COLLISION_SCALE; the initial rotation angle is the
random draw uniform(0, 360), passed in explicitly. -/
def Asteroid.make (baseW : ℤ) (pos vel : ℚ × ℚ) (scale spin angle0 : ℚ) : Asteroid :=
  { baseW := baseW, scale := scale, angle := angle0, spin := spin, pos := pos, vel := vel,
    dead := false,
    radius := 0.5 * ((scaledWidth baseW scale : ℤ) : ℚ) * ASTEROID_COLLISION_SCALE }

/-- Asteroid.update(dt): spin advances the angle modulo 360, the position
integrates velocity * dt and wraps. -/
def Asteroid.update (a : Asteroid) (dt : ℚ) : Asteroid :=
  { a with angle := fmod (a.angle + a.spin * dt) 360,
           pos := wrap_position (add a.pos (scale_vec a.vel dt)) }

/-- Pre-drawn random values consumed by one Asteroid.split call: the
randint(2,3) fragment count and, per fragment i, the kick direction angle
uniform(0, 2*pi), the kick speed uniform over ASTEROID_SPEED_RANGE, the spin
uniform(-120, 120) and the initial rotation uniform(0, 360). -/
structure SplitRand where
  nPieces : Nat
  ang : Nat → ℚ
  speed : Nat → ℚ
  spin : Nat → ℚ
  rot : Nat → ℚ

/-- Asteroid.split(): the child scale is scale * 0.6; below the minimum the
parent is marked dead and no pieces are produced; otherwise nPieces children
are built at the parent's position with the parent's velocity plus a random
kick.  The parent is marked dead in both branches.  cossin abstracts
(math.cos, math.sin) at a radian argument. -/
def Asteroid.split (cossin : ℚ → ℚ × ℚ) (r : SplitRand) (a : Asteroid) :
    Asteroid × List Asteroid :=
  let new_scale := a.scale * 0.6
  if new_scale < ASTEROID_SCALE_MIN then ({ a with dead := true }, [])
  else
    let pieces := (List.range r.nPieces).map (fun i =>
      let dir := cossin (r.ang i)
      Asteroid.make a.baseW a.pos (add a.vel (dir.1 * r.speed i, dir.2 * r.speed i))
        new_scale (r.spin i) (r.rot i))
    ({ a with dead := true }, pieces)

/-- The per-frame input snapshot: the five keys the playing state reads. -/
structure Keys where
  left : Bool
  right : Bool
  up : Bool
  space : Bool
  h : Bool
deriving DecidableEq

/-- The player craft (class Ship).  noseDist and radius are derived from the
sprite size at construction and never change. -/
structure Ship where
  pos : ℚ × ℚ
  vel : ℚ × ℚ
  angle : ℚ
  cooldown : ℚ
  invuln : ℚ
  alive : Bool
  thrusting : Bool
  noseDist : ℚ
  radius : ℚ
deriving DecidableEq

/-- Ship constructor: centered, at rest, facing up, with nose distance and
collision radius derived from the sprite size. -/
def Ship.make (baseW baseH : ℤ) : Ship :=
  { pos := (WIDTH / 2, HEIGHT / 2), vel := (0, 0), angle := -90,
    cooldown := 0, invuln := 0, alive := true, thrusting := false,
    noseDist := ((baseH : ℚ) / 2) * 0.95,
    radius := 0.5 * (baseW : ℚ) * SHIP_COLLISION_SCALE }

/-- Ship.reset(): recenter, zero velocity, face up, clear the fire cooldown
and grant the full invulnerability window. -/
def Ship.reset (s : Ship) : Ship :=
  { s with pos := (WIDTH / 2, HEIGHT / 2), vel := (0, 0), angle := -90,
           cooldown := 0, invuln := INVULN_TIME, alive := true }

/-- Ship.update(dt, keys): rotation by 220 degrees per second per held key,
thrust integration along the facing direction, continuous friction damping,
position integration with wrap, and both timers decremented clamped at 0.
dirD abstracts from_angle(math.radians(angle)) for a degree angle. -/
def Ship.update (dirD : ℚ → ℚ × ℚ) (s : Ship) (dt : ℚ) (keys : Keys) : Ship :=
  let angle := s.angle - (if keys.left then SHIP_TURN_DEG * dt else 0)
  let angle := angle + (if keys.right then SHIP_TURN_DEG * dt else 0)
  let thrusting := keys.up
  let vel := if thrusting then add s.vel (scale_vec (scale_vec (dirD angle) SHIP_THRUST) dt)
             else s.vel
  let vel := scale_vec vel (1 - (1 - SHIP_FRICTION) * dt)
  let pos := wrap_position (add s.pos (scale_vec vel dt))
  { s with angle := angle, thrusting := thrusting, vel := vel, pos := pos,
           cooldown := max 0 (s.cooldown - dt), invuln := max 0 (s.invuln - dt) }

/-- Rotated nose point of the craft sprite. -/
def Ship.nosePos (dirD : ℚ → ℚ × ℚ) (s : Ship) : ℚ × ℚ :=
  add s.pos (scale_vec (dirD s.angle) s.noseDist)

/-- Ship.fire(bullets): a silent no-op while the cooldown is positive or the
projectile collection is at the cap; otherwise appends one bullet spawned
just past the nose, inheriting the craft velocity, and resets the cooldown
to 0.18 seconds. -/
def Ship.fire (dirD : ℚ → ℚ × ℚ) (s : Ship) (bullets : List Bullet) :
    Ship × List Bullet :=
  if s.cooldown > 0 ∨ bullets.length ≥ MAX_BULLETS then (s, bullets)
  else
    let fwd := dirD s.angle
    let muzzle := add (s.nosePos dirD) (scale_vec fwd 6)
    let vel := add (scale_vec fwd BULLET_SPEED) s.vel
    ({ s with cooldown := 0.18 }, bullets ++ [Bullet.mk0 muzzle vel])

/-- Ship.hyperspace(): teleport to a random point (drawn outside and passed
in), zero velocity, grant the short 0.8 second invulnerability window. -/
def Ship.hyperspace (p : ℚ × ℚ) (s : Ship) : Ship :=
  { s with pos := p, vel := (0, 0), invuln := 0.8 }

/-- Session phase of the game state machine. -/
inductive GState where
  | menu
  | playing
  | gameover
deriving DecidableEq

/-- The game session (class Game), restricted to simulation state. -/
structure Game where
  ship : Ship
  asteroids : List Asteroid
  bullets : List Bullet
  score : ℤ
  lives : ℤ
  wave : ℤ
  state : GState
deriving DecidableEq

/-- Game.ship_die(): decrement lives; on a negative result transition to
gameover, otherwise reset the craft. -/
def Game.ship_die (g : Game) : Game :=
  let lives := g.lives - 1
  if lives < 0 then { g with lives := lives, state := GState.gameover }
  else { g with lives := lives, ship := g.ship.reset }

/-- The inner loop of the bullets-versus-rocks pass: index of the first
bullet in collection order whose position overlaps the rock's collision
circle (the bullet is treated as a circle of radius 2).  The dead flag of a
bullet is NOT consulted, exactly as in the source. -/
def hitBulletIdx (bullets : List Bullet) (a : Asteroid) : Option Nat :=
  match bullets with
  | [] => none
  | b :: rest =>
    if circle_collide a.pos a.radius b.pos 2 then some 0
    else (hitBulletIdx rest a).map (fun n => n + 1)

/-- Mark the bullet at index k dead (the mutation hit_bullet.dead = True). -/
def setDead : List Bullet → Nat → List Bullet
  | [], _ => []
  | b :: rest, 0 => { b with dead := true } :: rest
  | b :: rest, Nat.succ k => b :: setDead rest k

/-- The matching trace of the bullets-versus-rocks pass: for each rock in
order, the index of the bullet the source pairs it with (if any), with
matched bullets marked dead before later rocks are examined, exactly as the
mutation order of the source dictates. -/
def resolveMatches : List Asteroid → List Bullet → List (Option Nat)
  | [], _ => []
  | a :: rest, bullets =>
    match hitBulletIdx bullets a with
    | some k => some k :: resolveMatches rest (setDead bullets k)
    | none => none :: resolveMatches rest bullets

/-- The bullets-versus-rocks resolution pass of Game.update: per rock, find
the first overlapping bullet; on a hit add max(10, int(radius)) to the
score, mark that bullet dead and extend the output with the rock's split
pieces; otherwise keep the rock.  Returns (new rock list, bullet list with
dead marks, score).  splitF abstracts Asteroid.split with its fresh random
draws; only the returned pieces enter the rock list, as in the source. -/
def resolvePass (splitF : Asteroid → List Asteroid) :
    List Asteroid → List Bullet → ℤ → List Asteroid × List Bullet × ℤ
  | [], bullets, score => ([], bullets, score)
  | a :: rest, bullets, score =>
    match hitBulletIdx bullets a with
    | some k =>
      let res := resolvePass splitF rest (setDead bullets k) (score + max 10 (pyInt a.radius))
      (splitF a ++ res.1, res.2.1, res.2.2)
    | none =>
      let res := resolvePass splitF rest bullets score
      (a :: res.1, res.2.1, res.2.2)

/-- The rejection-sampling placement loop of Game.spawn_wave.  The source is
a bare while True that resamples until the sampled position clears a
140-pixel circle around the craft; since that loop has no bound in the
code, the model adds fuel and returns none when the fuel runs out without
the loop having exited.  samples is the stream of uniform position draws,
k the index of the next draw. -/
def placeRock (samples : Nat → ℚ × ℚ) (tempRadius : ℚ) (shipPos : ℚ × ℚ) :
    Nat → Nat → Option (ℚ × ℚ)
  | _, 0 => none
  | k, Nat.succ fuel =>
    let pos := samples k
    if circle_collide pos tempRadius shipPos 140 then
      placeRock samples tempRadius shipPos (k + 1) fuel
    else some pos

/-- Pre-drawn random values consumed by one Game.spawn_wave call, indexed by
the rock number within the wave: the chosen sprite's width, the scale
uniform(0.8, 1.0), the stream of rejection-sampling position draws, the
velocity direction angle, the speed, the spin uniform(-60, 60) and the
initial rotation. -/
structure SpawnRand where
  imgW : Nat → ℤ
  scale : Nat → ℚ
  posSamples : Nat → Nat → ℚ × ℚ
  ang : Nat → ℚ
  speed : Nat → ℚ
  spin : Nat → ℚ
  rot : Nat → ℚ

/-- The body of Game.spawn_wave's for-loop, building n rocks starting at
rock index i: each rock gets a sprite width and scale, a position from the
rejection loop (clearance radius computed from the raw scaled width), and a
velocity from a random angle and speed.  none when a placement loop
exhausts its fuel. -/
def spawnRocks (cossin : ℚ → ℚ × ℚ) (r : SpawnRand) (fuel : Nat) (shipPos : ℚ × ℚ) :
    Nat → Nat → Option (List Asteroid)
  | _, 0 => some []
  | i, Nat.succ n =>
    let w := r.imgW i
    let sc := r.scale i
    let tempRadius := 0.5 * (w : ℚ) * sc * ASTEROID_COLLISION_SCALE
    match placeRock (r.posSamples i) tempRadius shipPos 0 fuel with
    | none => none
    | some pos =>
      match spawnRocks cossin r fuel shipPos (i + 1) n with
      | none => none
      | some rest =>
        some (Asteroid.make w pos
          ((cossin (r.ang i)).1 * r.speed i, (cossin (r.ang i)).2 * r.speed i)
          sc (r.spin i) (r.rot i) :: rest)

/-- Game.spawn_wave(): increment the wave number, then append 3 + wave new
rocks (count computed after the increment). -/
def Game.spawn_wave (cossin : ℚ → ℚ × ℚ) (r : SpawnRand) (fuel : Nat) (g : Game) :
    Option Game :=
  match spawnRocks cossin r fuel g.ship.pos 0 (3 + (g.wave + 1)).toNat with
  | none => none
  | some rocks => some { g with wave := g.wave + 1, asteroids := g.asteroids ++ rocks }

/-- External collaborators of one frame: the abstract direction functions
(dirD for a degree argument, cossin for a radian argument), the hyperspace
target draw, the split results for each rock hit this frame, and the wave
spawn draws. -/
structure Env where
  dirD : ℚ → ℚ × ℚ
  cossin : ℚ → ℚ × ℚ
  hyperPos : ℚ × ℚ
  splitF : Asteroid → List Asteroid
  spawn : SpawnRand

/-- The playing-phase body of Game.update up to (and including) the
craft-versus-rocks check, in source order: craft physics, conditional fire,
conditional hyperspace, bullet updates and prune, rock updates, the
bullets-versus-rocks pass with its prunes, then the death check (skipped
while invulnerable; the first overlapping rock triggers ship_die). -/
def Game.updatePre (env : Env) (g : Game) (dt : ℚ) (keys : Keys) : Game :=
  let ship1 := Ship.update env.dirD g.ship dt keys
  let fired := if keys.space then Ship.fire env.dirD ship1 g.bullets else (ship1, g.bullets)
  let ship2 := if keys.h then Ship.hyperspace env.hyperPos fired.1 else fired.1
  let bullets1 := (fired.2.map (fun b => b.update dt)).filter (fun b => !b.dead)
  let asts1 := g.asteroids.map (fun a => a.update dt)
  let res := resolvePass env.splitF asts1 bullets1 g.score
  let g1 := { g with ship := ship2,
                     asteroids := res.1.filter (fun a => !a.dead),
                     bullets := res.2.1.filter (fun b => !b.dead),
                     score := res.2.2 }
  if decide (g1.ship.invuln ≤ (0 : ℚ)) && g1.asteroids.any (fun a =>
      circle_collide g1.ship.pos g1.ship.radius a.pos a.radius) then
    g1.ship_die
  else g1

/-- Game.update(dt): a no-op outside the playing phase; otherwise run the
frame body and spawn a new wave when the rock collection has become
empty. -/
def Game.update (env : Env) (fuel : Nat) (g : Game) (dt : ℚ) (keys : Keys) :
    Option Game :=
  if g.state ≠ GState.playing then some g
  else
    let mid := g.updatePre env dt keys
    if mid.asteroids.isEmpty then Game.spawn_wave env.cossin env.spawn fuel mid
    else some mid

/-- One frame's externally supplied data: environment, spawn-loop fuel,
frame delta time and input snapshot. -/
structure Frame where
  env : Env
  fuel : Nat
  dt : ℚ
  keys : Keys

/-- Run a sequence of frames through Game.update. -/
def Game.run : Game → List Frame → Option Game
  | g, [] => some g
  | g, f :: rest =>
    match Game.update f.env f.fuel g f.dt f.keys with
    | none => none
    | some g1 => g1.run rest

/-- A degenerate direction function used to instantiate the abstract
trigonometric parameter in concrete tests: always the unit x vector. -/
def unitDir : ℚ → ℚ × ℚ := fun _ => (1, 0)

/-- Input snapshot with no key held. -/
def keysNone : Keys :=
  { left := false, right := false, up := false, space := false, h := false }

/-- Input snapshot with only the hyperspace key held. -/
def keysH : Keys := { keysNone with h := true }

/-- Test craft built from a 56 by 56 sprite, as the fallback sprite size. -/
def testShip : Ship := Ship.make 56 56

/-- Concrete spawn draws: 0-width sprite, scale 1, all position samples at
the top-left corner, zero angles, speeds and spins. -/
def testSpawnRand : SpawnRand :=
  { imgW := fun _ => 0, scale := fun _ => 1, posSamples := fun _ _ => (0, 0),
    ang := fun _ => 0, speed := fun _ => 0, spin := fun _ => 0, rot := fun _ => 0 }

/-- Concrete split draws: two fragments, zero angles, speeds and spins. -/
def testSplitRand : SplitRand :=
  { nPieces := 2, ang := fun _ => 0, speed := fun _ => 0,
    spin := fun _ => 0, rot := fun _ => 0 }

/-- Concrete frame environment for witnesses. -/
def envT : Env :=
  { dirD := unitDir, cossin := unitDir, hyperPos := (0, 0),
    splitF := fun _ => [], spawn := testSpawnRand }

/-- Fresh playing session with no entities. -/
def g0 : Game :=
  { ship := testShip, asteroids := [], bullets := [], score := 0, lives := 3,
    wave := 0, state := GState.playing }

/-- A rock at the origin built from a 24-pixel sprite (radius 10.2). -/
def cexAst : Asteroid := Asteroid.make 24 (0, 0) (0, 0) 1 0 0

/-- A rock away from the playfield center. -/
def farAst : Asteroid := Asteroid.make 24 (100, 100) (0, 0) 1 0 0

/-- A bullet sitting at the origin. -/
def cexBullet : Bullet := Bullet.mk0 (0, 0) (0, 0)

/-- A small rock whose scale is below the fragmentation threshold. -/
def smallAst : Asteroid := Asteroid.make 24 (0, 0) (0, 0) 0.4 0 0

/-- Playing session holding one rock. -/
def gAst : Game := { g0 with asteroids := [farAst] }

/-- Playing session with one life remaining. -/
def gameLives1 : Game := { g0 with lives := 1 }

/-- Playing session with no life remaining. -/
def gameLives0 : Game := { g0 with lives := 0 }

/-- A frame holding the hyperspace key for half a second. -/
def frameH : Frame := { env := envT, fuel := 1, dt := 0.5, keys := keysH }

/-- The C2 claim, stated over the matching trace: in any frame's
bullets-versus-rocks pass, once a projectile index has been matched to a
rock, no later rock of the same pass is matched to that index. -/
def ProjectileHitsAtMostOneRock : Prop :=
  ∀ (rocks : List Asteroid) (bullets : List Bullet),
    List.Pairwise (fun m1 m2 => ∀ k : Nat, m1 = some k → m2 ≠ some k)
      (resolveMatches rocks bullets)

/-- The C4 claim: the wave-spawn placement loop has an explicit maximum
attempt count after which it always yields a position, for every sample
stream, clearance radius and craft position. -/
def PlacementLoopBounded : Prop :=
  ∃ cap : Nat, ∀ (samples : Nat → ℚ × ℚ) (tempRadius : ℚ) (shipPos : ℚ × ℚ),
    (placeRock samples tempRadius shipPos 0 cap).isSome = true

/-- C1 counterexample: wrap_position is not the true mathematical modulo.
The input (-2000, 0), less than two playfield widths to the left of the
field, is returned as (-720, 0), whose x coordinate is not in [0, WIDTH). -/
theorem wrap_position_counterexample :
    (wrap_position (-2000, 0)).1 = -720 ∧ ¬ (0 ≤ (wrap_position (-2000, 0)).1) := by
  have h : (wrap_position (-2000, 0)).1 = -720 := by
    simp only [wrap_position, WIDTH, HEIGHT]
    norm_num
  refine ⟨h, ?_⟩
  rw [h]
  norm_num

/-- C1 (amended): wrap_position applies at most one conditional add and one
conditional subtract of the playfield dimension per axis, so whenever each
input coordinate lies within one dimension below the field and strictly
inside it on the high side (x in [-WIDTH, WIDTH) and y in [-HEIGHT,
HEIGHT)), the result lies in [0, WIDTH) x [0, HEIGHT); for inputs further
out (or exactly on the upper boundary) the result can fall outside the
field, so the unconditional wrap invariant of the spec does not hold. -/
theorem wrap_position_in_field (x y : ℚ)
    (hx0 : -WIDTH ≤ x) (hx1 : x < WIDTH) (hy0 : -HEIGHT ≤ y) (hy1 : y < HEIGHT) :
    0 ≤ (wrap_position (x, y)).1 ∧ (wrap_position (x, y)).1 < WIDTH ∧
    0 ≤ (wrap_position (x, y)).2 ∧ (wrap_position (x, y)).2 < HEIGHT := by
  simp only [wrap_position, WIDTH, HEIGHT] at *
  refine ⟨?_, ?_, ?_, ?_⟩ <;> split_ifs <;> linarith

/-- C1 witness: the in-range input (-5, -5) wraps to a point inside the
field. -/
theorem wrap_position_in_field_witness :
    0 ≤ (wrap_position (-5, -5)).1 ∧ (wrap_position (-5, -5)).1 < WIDTH ∧
    0 ≤ (wrap_position (-5, -5)).2 ∧ (wrap_position (-5, -5)).2 < HEIGHT :=
  wrap_position_in_field (-5) (-5) (by norm_num [WIDTH]) (by norm_num [WIDTH])
    (by norm_num [HEIGHT]) (by norm_num [HEIGHT])

/-- C3 counterexample: two circles of radius 1 whose centers are exactly 2
apart touch without overlapping in the spec's strict sense, yet
circle_collide reports a collision, because the source compares with a
non-strict inequality. -/
theorem circle_collide_counterexample :
    circle_collide (0, 0) 1 (2, 0) 1 = true ∧ ¬ circlesOverlapSpec (0, 0) 1 (2, 0) 1 := by
  constructor
  · simp only [circle_collide, decide_eq_true_eq]
    norm_num
  · simp only [circlesOverlapSpec]
    norm_num

/-- C3 (amended): circle_collide returns true exactly when the squared
distance between the centers is less than OR EQUAL TO the square of the sum
of the radii, so two circles that exactly touch DO count as overlapping. -/
theorem circle_collide_iff (p1 p2 : ℚ × ℚ) (r1 r2 : ℚ) :
    circle_collide p1 r1 p2 r2 = true ↔
      (p1.1 - p2.1) ^ 2 + (p1.2 - p2.2) ^ 2 ≤ (r1 + r2) ^ 2 := by
  simp [circle_collide]

/-- C2 counterexample: the inner bullet loop of the resolution pass never
consults the dead flag, so one bullet sitting on two overlapping rocks is
matched to both of them in the same frame (trace [some 0, some 0]),
destroying two rocks with one projectile. -/
theorem projectile_double_hit_counterexample : ¬ ProjectileHitsAtMostOneRock := by
  intro hcl
  have h := hcl [cexAst, cexAst] [cexBullet]
  have he : resolveMatches [cexAst, cexAst] [cexBullet] = [some 0, some 0] := by
    norm_num [resolveMatches, hitBulletIdx, setDead, cexAst, cexBullet, Asteroid.make,
      Bullet.mk0, circle_collide, scaledWidth, pyInt, ASTEROID_COLLISION_SCALE]
  rw [he] at h
  exact (List.pairwise_cons.mp h).1 (some 0) (by simp) 0 rfl rfl

/-- Marking a bullet dead does not change which bullet a rock is matched
to, because the matching predicate reads only the bullet's position. -/
theorem hitBulletIdx_setDead (a : Asteroid) :
    ∀ (bs : List Bullet) (k : Nat), hitBulletIdx (setDead bs k) a = hitBulletIdx bs a := by
  intro bs
  induction bs with
  | nil => intro k; cases k <;> rfl
  | cons b rest ih =>
    intro k
    cases k with
    | zero => simp [setDead, hitBulletIdx]
    | succ k => simp [setDead, hitBulletIdx, ih k]

/-- C2 (amended): in each frame's bullets-versus-rocks pass every rock is
matched to the first projectile in collection order whose position overlaps
it, independently of which projectiles earlier rocks in the same pass were
matched to; a projectile already matched (and marked not-alive) is still
counted as a hit against later rocks, so one projectile can destroy several
rocks in one frame.  Formally, the matching trace is the pointwise map of
hitBulletIdx over the original bullet list. -/
theorem resolveMatches_pointwise (rocks : List Asteroid) (bullets : List Bullet) :
    resolveMatches rocks bullets = rocks.map (fun a => hitBulletIdx bullets a) := by
  induction rocks generalizing bullets with
  | nil => rfl
  | cons a rest ih =>
    simp only [resolveMatches, List.map_cons]
    cases h : hitBulletIdx bullets a with
    | none => simp [ih]
    | some k => simp [ih, hitBulletIdx_setDead]

/-- On a sample stream that always lands on the craft, the placement loop
never exits, whatever fuel it is given. -/
theorem placeRock_const_none : ∀ (fuel k : Nat),
    placeRock (fun _ => ((0 : ℚ), (0 : ℚ))) 1 (0, 0) k fuel = none := by
  intro fuel
  induction fuel with
  | zero => intro k; rfl
  | succ fuel ih =>
    intro k
    have hc : circle_collide ((0 : ℚ), (0 : ℚ)) 1 (0, 0) 140 = true := by
      norm_num [circle_collide]
    simp only [placeRock, hc, if_true]
    exact ih (k + 1)

/-- C4 counterexample: the source's placement loop is a bare while True with
no attempt cap; no finite bound makes it produce a position for every
sample stream, as an all-colliding stream defeats any proposed cap. -/
theorem placement_loop_counterexample : ¬ PlacementLoopBounded := by
  rintro ⟨cap, h⟩
  have h2 := h (fun _ => (0, 0)) 1 (0, 0)
  rw [placeRock_const_none cap 0] at h2
  simp at h2

/-- Generalized termination of the placement loop: starting at draw k with
enough fuel, and with the first clear sample at index i, the loop returns
that sample. -/
theorem placeRock_reaches (samples : Nat → ℚ × ℚ) (tempRadius : ℚ) (shipPos : ℚ × ℚ)
    (i : Nat) (hclear : circle_collide (samples i) tempRadius shipPos 140 = false)
    (hbefore : ∀ j, j < i → circle_collide (samples j) tempRadius shipPos 140 = true) :
    ∀ (fuel k : Nat), k ≤ i → i - k < fuel →
      placeRock samples tempRadius shipPos k fuel = some (samples i) := by
  intro fuel
  induction fuel with
  | zero => intro k _ hlt; omega
  | succ fuel ih =>
    intro k hk hlt
    simp only [placeRock]
    by_cases hki : k = i
    · subst hki
      rw [hclear]
      simp
    · have hklt : k < i := lt_of_le_of_ne hk hki
      rw [hbefore k hklt]
      simp only [if_true]
      exact ih (k + 1) (by omega) (by omega)

/-- C4 (amended): the placement loop of spawn_wave has no attempt cap; it
terminates precisely by drawing a position clear of the craft, and when the
sample stream first produces a clear position at index i, any run allowed
more than i attempts returns exactly that sample (it never accepts a
colliding one). -/
theorem placeRock_first_clear (samples : Nat → ℚ × ℚ) (tempRadius : ℚ)
    (shipPos : ℚ × ℚ) (i fuel : Nat)
    (hclear : circle_collide (samples i) tempRadius shipPos 140 = false)
    (hbefore : ∀ j, j < i → circle_collide (samples j) tempRadius shipPos 140 = true)
    (hfuel : i < fuel) :
    placeRock samples tempRadius shipPos 0 fuel = some (samples i) :=
  placeRock_reaches samples tempRadius shipPos i hclear hbefore fuel 0
    (Nat.zero_le i) (by omega)

/-- C4 witness: with the craft at the playfield center, a corner sample is
clear at the very first draw, so one unit of fuel suffices. -/
theorem placeRock_first_clear_witness :
    placeRock (fun _ => ((0 : ℚ), (0 : ℚ))) 1 (WIDTH / 2, HEIGHT / 2) 0 1 = some (0, 0) :=
  placeRock_first_clear (fun _ => ((0 : ℚ), (0 : ℚ))) 1 (WIDTH / 2, HEIGHT / 2) 0 1
    (by norm_num [circle_collide, WIDTH, HEIGHT])
    (fun j hj => absurd hj (Nat.not_lt_zero j)) Nat.one_pos

/-- C5: Game.ship_die decrements lives by exactly one; when the decremented
value is negative the phase becomes gameover, otherwise the craft is reset
to the playfield center with zero velocity and the full 2.0-second
invulnerability window while the phase is left unchanged, so a playing
session continues playing (lives 1 becomes lives 0 and play continues;
lives 0 becomes GameOver). -/
theorem ship_die_spec (g : Game) :
    (g.ship_die).lives = g.lives - 1 ∧
    (g.lives - 1 < 0 → (g.ship_die).state = GState.gameover) ∧
    (0 ≤ g.lives - 1 →
      (g.ship_die).state = g.state ∧
      (g.ship_die).ship = g.ship.reset ∧
      (g.ship_die).ship.pos = (WIDTH / 2, HEIGHT / 2) ∧
      (g.ship_die).ship.vel = (0, 0) ∧
      (g.ship_die).ship.invuln = INVULN_TIME ∧
      INVULN_TIME = 2) := by
  simp only [Game.ship_die]
  split_ifs with h
  · exact ⟨rfl, fun _ => rfl, fun h2 => absurd h (not_lt.mpr h2)⟩
  · exact ⟨rfl, fun h2 => absurd h2 h, fun _ => ⟨rfl, rfl, rfl, rfl, rfl, rfl⟩⟩

/-- C5 witness: a playing session with one life continues playing with zero
lives after a death; one with zero lives transitions to GameOver. -/
theorem ship_die_spec_witness :
    (gameLives1.ship_die).lives = 0 ∧ (gameLives1.ship_die).state = GState.playing ∧
    (gameLives0.ship_die).state = GState.gameover := by
  refine ⟨?_, ?_, ?_⟩
  · have h := (ship_die_spec gameLives1).1
    simpa [gameLives1, g0] using h
  · have h := ((ship_die_spec gameLives1).2.2 (by norm_num [gameLives1, g0])).1
    simpa [gameLives1, g0] using h
  · exact (ship_die_spec gameLives0).2.1 (by norm_num [gameLives0, g0])

/-- Accumulation invariant of repeated Bullet.update under nonnegative frame
deltas: the age accumulates the elapsed time, and the dead flag holds
exactly when the accumulated age exceeds the lifetime. -/
theorem bullet_updates_inv : ∀ (dts : List ℚ) (b : Bullet),
    (∀ d ∈ dts, 0 ≤ d) → b.dead = decide (BULLET_LIFETIME < b.age) →
    (b.updates dts).age = b.age + dts.sum ∧
    (b.updates dts).dead = decide (BULLET_LIFETIME < b.age + dts.sum)
  | [], b, _, hd =>
    ⟨by simp [Bullet.updates], by simpa [Bullet.updates] using hd⟩
  | d :: rest, b, h, hd => by
    have hd0 : 0 ≤ d := h d (List.mem_cons_self d rest)
    have hrest : ∀ x ∈ rest, 0 ≤ x := fun x hx => h x (List.mem_cons_of_mem d hx)
    simp only [Bullet.updates, Bullet.update, List.sum_cons]
    split_ifs with hlt
    · have hstep := bullet_updates_inv rest { b with age := b.age + d, dead := true } hrest
        ((decide_eq_true hlt).symm)
      simpa [add_assoc] using hstep
    · have hdead : b.dead = decide (BULLET_LIFETIME < b.age + d) := by
        rw [hd]
        exact decide_eq_decide.mpr
          (iff_of_false (fun hc => hlt (by linarith)) hlt)
      have hstep := bullet_updates_inv rest
        { b with age := b.age + d,
                 pos := wrap_position (add b.pos (scale_vec b.vel d)) } hrest hdead
      simpa [add_assoc] using hstep

/-- C6: a projectile is marked not-alive exactly when its accumulated age
exceeds 1.2 seconds: on the update call where the new age strictly exceeds
the lifetime the dead flag is set and no position integration happens; on
every other call the position integrates velocity * dt and wraps with the
dead flag untouched; and over any sequence of nonnegative frame deltas a
fresh projectile ends dead exactly when the total elapsed time exceeds the
1.2-second lifetime. -/
theorem bullet_lifetime_spec :
    (∀ (b : Bullet) (dt : ℚ), BULLET_LIFETIME < b.age + dt →
      (b.update dt).dead = true ∧ (b.update dt).pos = b.pos ∧ (b.update dt).vel = b.vel) ∧
    (∀ (b : Bullet) (dt : ℚ), ¬ BULLET_LIFETIME < b.age + dt →
      (b.update dt).dead = b.dead ∧
      (b.update dt).pos = wrap_position (add b.pos (scale_vec b.vel dt))) ∧
    (∀ (pos vel : ℚ × ℚ) (dts : List ℚ), (∀ d ∈ dts, 0 ≤ d) →
      ((Bullet.mk0 pos vel).updates dts).dead = decide (BULLET_LIFETIME < dts.sum) ∧
      ((Bullet.mk0 pos vel).updates dts).age = dts.sum) := by
  refine ⟨?_, ?_, ?_⟩
  · intro b dt h
    simp only [Bullet.update]
    rw [if_pos h]
    exact ⟨rfl, rfl, rfl⟩
  · intro b dt h
    simp only [Bullet.update]
    rw [if_neg h]
    exact ⟨rfl, rfl⟩
  · intro pos vel dts h
    have hinv := bullet_updates_inv dts (Bullet.mk0 pos vel) h
      ((decide_eq_false (by norm_num [Bullet.mk0, BULLET_LIFETIME])).symm)
    exact ⟨by simpa [Bullet.mk0] using hinv.2, by simpa [Bullet.mk0] using hinv.1⟩

/-- C6 witness: two one-second updates (total 2s) leave a fresh projectile
dead; a single half-second update leaves it alive. -/
theorem bullet_lifetime_spec_witness :
    ((Bullet.mk0 (0, 0) (0, 0)).updates [1, 1]).dead = true ∧
    ((Bullet.mk0 (0, 0) (0, 0)).updates [0.5]).dead = false := by
  constructor
  · have h := (bullet_lifetime_spec.2.2 (0, 0) (0, 0) [1, 1] (by norm_num)).1
    rw [h]
    simp only [List.sum_cons, List.sum_nil, decide_eq_true_eq]
    norm_num [BULLET_LIFETIME]
  · have h := (bullet_lifetime_spec.2.2 (0, 0) (0, 0) [0.5] (by norm_num)).1
    rw [h]
    simp only [List.sum_cons, List.sum_nil, decide_eq_false_iff_not]
    norm_num [BULLET_LIFETIME]

/-- C7: Asteroid.split marks the parent not-alive and returns no pieces
when the child scale (0.6 of the parent scale) is below the 0.45 threshold;
otherwise it marks the parent not-alive and returns the randint(2,3)-many
children, each of exactly the child scale.  Consequently no rock with scale
below 0.45 ever produces children, children of a rock of at most spawn
scale 1 never split further (so fragmentation ends within two generations
for every spawnable rock), and from any positive scale the geometric 0.6
decay falls below the threshold after finitely many generations. -/
theorem asteroid_split_spec :
    (∀ (cs : ℚ → ℚ × ℚ) (r : SplitRand) (a : Asteroid),
      a.scale * 0.6 < ASTEROID_SCALE_MIN →
      (a.split cs r).1.dead = true ∧ (a.split cs r).2 = []) ∧
    (∀ (cs : ℚ → ℚ × ℚ) (r : SplitRand) (a : Asteroid),
      ¬ a.scale * 0.6 < ASTEROID_SCALE_MIN →
      2 ≤ r.nPieces → r.nPieces ≤ 3 →
      (a.split cs r).1.dead = true ∧
      (a.split cs r).2.length = r.nPieces ∧
      ((a.split cs r).2.length = 2 ∨ (a.split cs r).2.length = 3) ∧
      (∀ c ∈ (a.split cs r).2, c.scale = a.scale * 0.6)) ∧
    (∀ (cs : ℚ → ℚ × ℚ) (r : SplitRand) (a : Asteroid),
      a.scale < ASTEROID_SCALE_MIN → (a.split cs r).2 = []) ∧
    (∀ (cs cs2 : ℚ → ℚ × ℚ) (r r2 : SplitRand) (a : Asteroid), a.scale ≤ 1 →
      ∀ c ∈ (a.split cs r).2, (c.split cs2 r2).2 = []) ∧
    (∀ s : ℚ, 0 < s → ∃ n : Nat, s * (0.6 : ℚ) ^ n < ASTEROID_SCALE_MIN) := by
  have hterm : ∀ (cs : ℚ → ℚ × ℚ) (r : SplitRand) (a : Asteroid),
      a.scale * 0.6 < ASTEROID_SCALE_MIN →
      (a.split cs r).1.dead = true ∧ (a.split cs r).2 = [] := by
    intro cs r a h
    simp only [Asteroid.split]
    rw [if_pos h]
    exact ⟨rfl, rfl⟩
  have hscale : ∀ (cs : ℚ → ℚ × ℚ) (r : SplitRand) (a : Asteroid),
      ∀ c ∈ (a.split cs r).2, c.scale = a.scale * 0.6 := by
    intro cs r a c hc
    simp only [Asteroid.split] at hc
    split_ifs at hc with h
    · simp at hc
    · simp only [List.mem_map, List.mem_range] at hc
      obtain ⟨i, _, rfl⟩ := hc
      rfl
  refine ⟨hterm, ?_, ?_, ?_, ?_⟩
  · intro cs r a h h2 h3
    have hlen : (a.split cs r).2.length = r.nPieces := by
      simp only [Asteroid.split]
      rw [if_neg h]
      simp
    have hdead : (a.split cs r).1.dead = true := by
      simp only [Asteroid.split]
      rw [if_neg h]
    exact ⟨hdead, hlen, by omega, hscale cs r a⟩
  · intro cs r a h
    have h6 : a.scale * 0.6 < ASTEROID_SCALE_MIN := by
      calc a.scale * 0.6 < ASTEROID_SCALE_MIN * 0.6 :=
            mul_lt_mul_of_pos_right h (by norm_num)
        _ < ASTEROID_SCALE_MIN := by norm_num [ASTEROID_SCALE_MIN]
    exact (hterm cs r a h6).2
  · intro cs cs2 r r2 a ha c hc
    have hcs : c.scale = a.scale * 0.6 := hscale cs r a c hc
    have h6 : c.scale * 0.6 < ASTEROID_SCALE_MIN := by
      rw [hcs]
      simp only [ASTEROID_SCALE_MIN]
      nlinarith [ha]
    exact (hterm cs2 r2 c h6).2
  · intro s hs
    obtain ⟨n, hn⟩ := exists_pow_lt_of_lt_one
      (div_pos (show (0 : ℚ) < ASTEROID_SCALE_MIN by norm_num [ASTEROID_SCALE_MIN]) hs)
      (by norm_num : (0.6 : ℚ) < 1)
    refine ⟨n, ?_⟩
    have h2 := (lt_div_iff₀ hs).mp hn
    rw [mul_comm]
    exact h2

/-- C7 witness: a scale-1 rock splits into its two drawn fragments (each of
scale 0.6); a scale-0.4 rock fragments terminally with no pieces, and one
generation of decay from scale 1 falls below the threshold at n = 2. -/
theorem asteroid_split_spec_witness :
    (cexAst.split unitDir testSplitRand).2.length = 2 ∧
    (smallAst.split unitDir testSplitRand).2 = [] := by
  constructor
  · have h := (asteroid_split_spec.2.1 unitDir testSplitRand cexAst
      (by norm_num [cexAst, Asteroid.make, ASTEROID_SCALE_MIN])
      (by norm_num [testSplitRand]) (by norm_num [testSplitRand])).2.1
    simpa [testSplitRand] using h
  · exact asteroid_split_spec.2.2.1 unitDir testSplitRand smallAst
      (by norm_num [smallAst, Asteroid.make, ASTEROID_SCALE_MIN])

/-- C8: Ship.fire is a silent no-op, leaving craft and projectile list
unchanged, whenever the fire cooldown is positive or the projectile
collection already holds the maximum of 5; otherwise it appends exactly one
projectile and resets the cooldown to 0.18 seconds.  Consequently a second
fire call made after less than 0.18 seconds of simulated time (one
Ship.update of any dt in [0, 0.18)) adds no projectile, and with 5
projectiles present no projectile is ever added regardless of cooldown. -/
theorem ship_fire_spec :
    (∀ (dir : ℚ → ℚ × ℚ) (s : Ship) (bs : List Bullet),
      s.cooldown > 0 ∨ bs.length ≥ MAX_BULLETS → Ship.fire dir s bs = (s, bs)) ∧
    (∀ (dir : ℚ → ℚ × ℚ) (s : Ship) (bs : List Bullet),
      ¬ (s.cooldown > 0 ∨ bs.length ≥ MAX_BULLETS) →
      (Ship.fire dir s bs).2.length = bs.length + 1 ∧
      (Ship.fire dir s bs).1 = { s with cooldown := 0.18 }) ∧
    (∀ (dir : ℚ → ℚ × ℚ) (keys : Keys) (s : Ship) (bs : List Bullet) (dt : ℚ),
      ¬ s.cooldown > 0 → bs.length < MAX_BULLETS → 0 ≤ dt → dt < 0.18 →
      (Ship.fire dir (Ship.update dir (Ship.fire dir s bs).1 dt keys)
          (Ship.fire dir s bs).2).2 = (Ship.fire dir s bs).2 ∧
      (Ship.fire dir s bs).2.length = bs.length + 1) := by
  have hpart1 : ∀ (dir : ℚ → ℚ × ℚ) (s : Ship) (bs : List Bullet),
      s.cooldown > 0 ∨ bs.length ≥ MAX_BULLETS → Ship.fire dir s bs = (s, bs) := by
    intro dir s bs h
    simp only [Ship.fire]
    rw [if_pos h]
  have hpart2 : ∀ (dir : ℚ → ℚ × ℚ) (s : Ship) (bs : List Bullet),
      ¬ (s.cooldown > 0 ∨ bs.length ≥ MAX_BULLETS) →
      (Ship.fire dir s bs).2.length = bs.length + 1 ∧
      (Ship.fire dir s bs).1 = { s with cooldown := 0.18 } := by
    intro dir s bs h
    simp only [Ship.fire]
    rw [if_neg h]
    exact ⟨by simp, rfl⟩
  refine ⟨hpart1, hpart2, ?_⟩
  intro dir keys s bs dt hc hlen hdt0 hdt1
  have hno : ¬ (s.cooldown > 0 ∨ bs.length ≥ MAX_BULLETS) := by
    rintro (h | h)
    · exact hc h
    · exact absurd h (not_le.mpr hlen)
  have h1 := hpart2 dir s bs hno
  have hcoolr : (Ship.update dir (Ship.fire dir s bs).1 dt keys).cooldown
      = max 0 ((Ship.fire dir s bs).1.cooldown - dt) := rfl
  have hcool : (Ship.update dir (Ship.fire dir s bs).1 dt keys).cooldown > 0 := by
    rw [hcoolr, h1.2]
    exact lt_max_iff.mpr (Or.inr (by norm_num; linarith))
  have h2 := hpart1 dir (Ship.update dir (Ship.fire dir s bs).1 dt keys)
    (Ship.fire dir s bs).2 (Or.inl hcool)
  exact ⟨by rw [h2], h1.1⟩

/-- C8 witness: a fresh craft fires once; firing again 0.1 seconds later is
a no-op, so exactly one projectile exists after the pair of calls. -/
theorem ship_fire_spec_witness :
    (Ship.fire unitDir (Ship.update unitDir (Ship.fire unitDir testShip []).1 0.1 keysNone)
        (Ship.fire unitDir testShip []).2).2 = (Ship.fire unitDir testShip []).2 ∧
    (Ship.fire unitDir testShip []).2.length = 0 + 1 :=
  ship_fire_spec.2.2 unitDir keysNone testShip [] 0.1
    (by norm_num [testShip, Ship.make]) (by norm_num [MAX_BULLETS]) (by norm_num)
    (by norm_num)

/-- A successful spawnRocks call yields exactly the requested number of
rocks. -/
theorem spawnRocks_length (cs : ℚ → ℚ × ℚ) (r : SpawnRand) (fuel : Nat) (p : ℚ × ℚ) :
    ∀ (n i : Nat) (l : List Asteroid), spawnRocks cs r fuel p i n = some l →
      l.length = n := by
  intro n
  induction n with
  | zero =>
    intro i l h
    simp only [spawnRocks, Option.some.injEq] at h
    simp [← h]
  | succ n ih =>
    intro i l h
    simp only [spawnRocks] at h
    split at h
    · exact Option.noConfusion h
    · split at h
      · exact Option.noConfusion h
      · rename_i rest hrest
        simp only [Option.some.injEq] at h
        subst h
        simp [ih (i + 1) rest hrest]

/-- When every placement loop of a wave succeeds on its fuel budget,
spawnRocks succeeds. -/
theorem spawnRocks_total (cs : ℚ → ℚ × ℚ) (r : SpawnRand) (fuel : Nat) (p : ℚ × ℚ)
    (hplace : ∀ i, (placeRock (r.posSamples i)
      (0.5 * ((r.imgW i : ℤ) : ℚ) * r.scale i * ASTEROID_COLLISION_SCALE) p 0
      fuel).isSome = true) :
    ∀ (n i : Nat), (spawnRocks cs r fuel p i n).isSome = true := by
  intro n
  induction n with
  | zero => intro i; rfl
  | succ n ih =>
    intro i
    simp only [spawnRocks]
    split
    · rename_i hnone
      have h := hplace i
      rw [hnone] at h
      exact absurd h (by simp)
    · split
      · rename_i hnone
        have h := ih (i + 1)
        rw [hnone] at h
        exact absurd h (by simp)
      · rfl

/-- Game.ship_die never touches the rock collection. -/
theorem ship_die_asteroids (g : Game) : (g.ship_die).asteroids = g.asteroids := by
  simp only [Game.ship_die]
  split_ifs <;> rfl

/-- C9: Game.spawn_wave increments the wave number by one and then creates
exactly 3 + waveNumber new rocks (wave 1 spawns 4, wave 2 spawns 5, and so
on), and a playing-phase Game.update hands the frame result to spawn_wave
exactly when the live rock collection has become empty by the end of the
frame body, passing it through unchanged otherwise. -/
theorem spawn_wave_spec :
    (∀ (cs : ℚ → ℚ × ℚ) (r : SpawnRand) (fuel : Nat) (g g' : Game),
      0 ≤ g.wave → Game.spawn_wave cs r fuel g = some g' →
      g'.wave = g.wave + 1 ∧
      (g'.asteroids.length : ℤ) = g.asteroids.length + (3 + g'.wave)) ∧
    (∀ (env : Env) (fuel : Nat) (g : Game) (dt : ℚ) (keys : Keys),
      g.state = GState.playing →
      (g.updatePre env dt keys).asteroids = [] →
      Game.update env fuel g dt keys =
        Game.spawn_wave env.cossin env.spawn fuel (g.updatePre env dt keys)) ∧
    (∀ (env : Env) (fuel : Nat) (g : Game) (dt : ℚ) (keys : Keys),
      g.state = GState.playing →
      (g.updatePre env dt keys).asteroids ≠ [] →
      Game.update env fuel g dt keys = some (g.updatePre env dt keys)) := by
  refine ⟨?_, ?_, ?_⟩
  · intro cs r fuel g g' hw h
    simp only [Game.spawn_wave] at h
    split at h
    · exact Option.noConfusion h
    · rename_i rocks hrocks
      simp only [Option.some.injEq] at h
      subst h
      refine ⟨rfl, ?_⟩
      have hl := spawnRocks_length cs r fuel g.ship.pos ((3 + (g.wave + 1)).toNat) 0
        rocks hrocks
      simp only [List.length_append, hl]
      push_cast
      omega
  · intro env fuel g dt keys hst hempty
    simp [Game.update, hst, hempty]
  · intro env fuel g dt keys hst hne
    simp [Game.update, hst, hne]

/-- C9 witness: on an empty playing session the frame update triggers the
wave spawn, and with the test draws the spawn yields wave 1 with 4 rocks. -/
theorem spawn_wave_spec_witness :
    Game.update envT 1 g0 1 keysNone =
      Game.spawn_wave envT.cossin envT.spawn 1 (g0.updatePre envT 1 keysNone) ∧
    (Game.spawn_wave unitDir testSpawnRand 1 g0).map
      (fun g => (g.wave, (g.asteroids.length : ℤ))) = some (1, 4) := by
  have hempty : (g0.updatePre envT 1 keysNone).asteroids = [] := by
    simp only [Game.updatePre]
    split_ifs <;> rfl
  constructor
  · exact spawn_wave_spec.2.1 envT 1 g0 1 keysNone rfl hempty
  · have hplace : ∀ i, (placeRock (testSpawnRand.posSamples i)
        (0.5 * ((testSpawnRand.imgW i : ℤ) : ℚ) * testSpawnRand.scale i *
          ASTEROID_COLLISION_SCALE) g0.ship.pos 0 1).isSome = true := by
      intro i
      have hr := placeRock_reaches (testSpawnRand.posSamples i)
        (0.5 * ((testSpawnRand.imgW i : ℤ) : ℚ) * testSpawnRand.scale i *
          ASTEROID_COLLISION_SCALE) g0.ship.pos 0
        (by norm_num [testSpawnRand, circle_collide, g0, testShip, Ship.make,
          WIDTH, HEIGHT, ASTEROID_COLLISION_SCALE])
        (fun j hj => absurd hj (Nat.not_lt_zero j)) 1 0 (le_refl 0) (by omega)
      rw [hr]
      rfl
    have htotal := spawnRocks_total unitDir testSpawnRand 1 g0.ship.pos hplace
    cases hs : Game.spawn_wave unitDir testSpawnRand 1 g0 with
    | none =>
      exfalso
      simp only [Game.spawn_wave] at hs
      split at hs
      · rename_i hnone
        have h := htotal ((3 + (g0.wave + 1)).toNat) 0
        rw [hnone] at h
        exact absurd h (by simp)
      · exact Option.noConfusion hs
    | some g' =>
      have h := spawn_wave_spec.1 unitDir testSpawnRand 1 g0 g'
        (by norm_num [g0]) hs
      simp only [Option.map_some']
      have hw : g'.wave = 1 := by simpa [g0] using h.1
      have hl : (g'.asteroids.length : ℤ) = 4 := by
        rw [h.2, hw]
        simp [g0]
      simp [hw, hl]

/-- Game.spawn_wave never touches lives or the session phase. -/
theorem spawn_wave_preserves (cs : ℚ → ℚ × ℚ) (r : SpawnRand) (fuel : Nat) (g g' : Game)
    (h : Game.spawn_wave cs r fuel g = some g') :
    g'.lives = g.lives ∧ g'.state = g.state := by
  simp only [Game.spawn_wave] at h
  split at h
  · exact Option.noConfusion h
  · simp only [Option.some.injEq] at h
    subst h
    exact ⟨rfl, rfl⟩

/-- A frame whose input holds the hyperspace key re-grants the 0.8-second
invulnerability window after the craft has moved and before the
craft-versus-rock check runs, so that check is skipped: the frame body
leaves lives and phase unchanged and ends with invulnerability 0.8. -/
theorem updatePre_hyper (env : Env) (g : Game) (dt : ℚ) (keys : Keys)
    (hk : keys.h = true) :
    (g.updatePre env dt keys).ship.invuln = 0.8 ∧
    (g.updatePre env dt keys).lives = g.lives ∧
    (g.updatePre env dt keys).state = g.state := by
  norm_num [Game.updatePre, hk, Ship.hyperspace]

/-- C10: every playing-phase frame with the hyperspace key held invokes
hyperspace unconditionally (no cooldown or rate limit gates it), re-setting
the invulnerability timer to 0.8 seconds before the craft-versus-rock death
check, which is therefore skipped; hence over any frame sequence during
which the key stays held (each frame's dt below 0.8 seconds, as the claim
assumes), the craft never dies: lives are unchanged and the session stays
in the playing phase. -/
theorem hyperspace_immortality :
    (∀ (env : Env) (g : Game) (dt : ℚ) (keys : Keys), keys.h = true →
      (g.updatePre env dt keys).ship.invuln = 0.8 ∧
      (g.updatePre env dt keys).lives = g.lives ∧
      (g.updatePre env dt keys).state = g.state) ∧
    (∀ (frames : List Frame) (g g' : Game),
      (∀ f ∈ frames, f.keys.h = true ∧ f.dt < 0.8) →
      g.state = GState.playing →
      Game.run g frames = some g' →
      g'.lives = g.lives ∧ g'.state = GState.playing) := by
  refine ⟨fun env g dt keys hk => updatePre_hyper env g dt keys hk, ?_⟩
  intro frames
  induction frames with
  | nil =>
    intro g g' _ hst hrun
    simp only [Game.run, Option.some.injEq] at hrun
    subst hrun
    exact ⟨rfl, hst⟩
  | cons f rest ih =>
    intro g g' hall hst hrun
    simp only [Game.run] at hrun
    split at hrun
    · exact Option.noConfusion hrun
    · rename_i g1 hup
      have hf := hall f (List.mem_cons_self f rest)
      have hrest : ∀ x ∈ rest, x.keys.h = true ∧ x.dt < 0.8 :=
        fun x hx => hall x (List.mem_cons_of_mem f hx)
      have hpre := updatePre_hyper f.env g f.dt f.keys hf.1
      have h1 : g1.lives = g.lives ∧ g1.state = GState.playing := by
        simp only [Game.update] at hup
        rw [if_neg (by simp [hst])] at hup
        split at hup
        · have hp := spawn_wave_preserves f.env.cossin f.env.spawn f.fuel _ g1 hup
          exact ⟨hp.1.trans hpre.2.1, hp.2.trans (hpre.2.2.trans hst)⟩
        · simp only [Option.some.injEq] at hup
          subst hup
          exact ⟨hpre.2.1, hpre.2.2.trans hst⟩
      have hrec := ih g1 g' hrest h1.2 hrun
      exact ⟨hrec.1.trans h1.1, hrec.2⟩

/-- C10 witness: one half-second frame with the hyperspace key held, on a
playing session with one rock and three lives, ends with three lives and
the session still playing. -/
theorem hyperspace_immortality_witness :
    (gAst.run [frameH]).map (fun g => (g.lives, g.state)) =
      some ((3 : ℤ), GState.playing) := by
  have hmid : (gAst.updatePre frameH.env frameH.dt frameH.keys).asteroids =
      [Asteroid.update farAst 0.5] := by
    have hsp : frameH.keys.space = false := rfl
    simp only [Game.updatePre, hsp, Bool.false_eq_true, if_false]
    split_ifs <;> rfl
  have hst : gAst.state = GState.playing := rfl
  have hupd : Game.update frameH.env frameH.fuel gAst frameH.dt frameH.keys =
      some (gAst.updatePre frameH.env frameH.dt frameH.keys) := by
    simp [Game.update, hst, hmid]
  cases hr : gAst.run [frameH] with
  | none =>
    exfalso
    simp only [Game.run] at hr
    rw [hupd] at hr
    simp only [Game.run] at hr
    exact Option.noConfusion hr
  | some g' =>
    have h := hyperspace_immortality.2 [frameH] gAst g'
      (by
        intro f hf
        have hfe : f = frameH := by simpa using hf
        subst hfe
        exact ⟨rfl, by norm_num [frameH]⟩)
      rfl hr
    simp only [Option.map_some']
    have h3 : gAst.lives = 3 := rfl
    rw [h3] at h
    simp [h.1, h.2]

end Asteroids
